import Mathlib

/-!
Shallow embedding of the battery-tracking runtime module
(src/runtime/src/battery.rs).

Modelling decisions:
* `T::Hash`, `T::AccountId` and `T::Moment` are modelled as `Nat`.
* Substrate storage maps are modelled as total functions into `Option`;
  a getter defaults an absent entry to the type's default value
  (`0` for `u64`/hashes, `batteryDefault` for `Battery`), mirroring the
  generated storage getters.  `u64` counters (default `0`) are modelled
  directly as `Nat`-valued functions.  Counter arithmetic is on `Nat`;
  counts stay far below `2 ^ 64` in reachable states, and theorems about
  decrements carry an explicit positivity hypothesis where it matters.
* The random id produced in `registry_battery` and the timestamp are
  environment inputs, so they are explicit parameters of the operation;
  the collision `ensure!` on the id is kept.
* Each dispatchable is a function from the pre-state (plus its
  arguments) to a `StepOut` record holding the error (if any), the
  post-state, and the list of emitted events, translated statement by
  statement in source order: every `ensure!` precedes every storage
  write, exactly as in the Rust source.
-/

namespace BatteryModule

abbrev AccountId : Type := Nat
abbrev HashT : Type := Nat
abbrev Moment : Type := Nat

/-- The `Battery` struct of the source (field `station` is the custodian). -/
structure Battery where
  id : HashT
  owner : AccountId
  station : Option AccountId
  tradable : Bool
  registry_time : Moment
deriving DecidableEq, Repr

/-- `Default::default()` for `Battery` (all-zero / `None` / `false`). -/
def batteryDefault : Battery := ⟨0, 0, none, false, 0⟩

/-- Events of `decl_event!`, with their exact field order. -/
inductive Evt where
  | RegistryStation (who : AccountId)
  | RegistryBattery (station : AccountId) (id : HashT) (owner : AccountId)
  | SwitchTradable (id : HashT) (value : Bool)
  | StoreToStation (id : HashT) (owner station : AccountId)
  | FetchFromStation (id : HashT) (sender owner : AccountId)
  | Trade (id : HashT) (src dst station : AccountId)
deriving DecidableEq, Repr

/-- One constructor per distinct `ensure!`/`ok_or` message in the source. -/
inductive Err where
  | alreadyBeenStation
  | notAStation
  | batteryAlreadyExists
  | idDoesNotExist
  | notTheOwner
  | mustBeInStation
  | senderNotStation
  | batteryDoesNotExist
  | stationMustBeNone
  | noStationForBattery
  | senderMustBeStationOfBattery
  | notTradable
  | toCannotBeOwner
deriving DecidableEq, Repr

/-- The whole storage of `decl_storage!`. -/
@[ext]
structure St where
  batteries : HashT → Option Battery
  allBatteriesCount : Nat
  allBatteriesArray : Nat → Option HashT
  ownedBatteriesCount : AccountId → Nat
  ownedBatteriesArray : AccountId × Nat → Option HashT
  ownedBatteriesIndex : HashT → Option Nat
  stationsCount : Nat
  stationsArray : Nat → Option AccountId
  stationsIndex : AccountId → Option Nat
  batteriesCountInStation : AccountId → Nat
  batteriesArrayInStation : AccountId × Nat → Option HashT
  batteriesIndexInStation : HashT → Option Nat

/-- Point update of a storage map. -/
def upd {α β : Type} [DecidableEq α] (f : α → β) (k : α) (v : β) : α → β :=
  fun x => if x = k then v else f x

/-- `StorageMap::remove`. -/
def del {α β : Type} [DecidableEq α] (f : α → Option β) (k : α) : α → Option β :=
  fun x => if x = k then none else f x

/-- `Self::batteries(id)` (storage getter, defaulting). -/
def batteriesG (s : St) (id : HashT) : Battery :=
  (s.batteries id).getD batteryDefault

/-- `Self::battery_of_owner_by_index` (storage getter, defaulting). -/
def ownedArrayG (s : St) (k : AccountId × Nat) : HashT :=
  (s.ownedBatteriesArray k).getD 0

/-- `Self::owned_battery_index` (storage getter, defaulting). -/
def ownedIndexG (s : St) (id : HashT) : Nat :=
  (s.ownedBatteriesIndex id).getD 0

/-- `Self::battery_of_station_by_index` (storage getter, defaulting). -/
def stInArrayG (s : St) (k : AccountId × Nat) : HashT :=
  (s.batteriesArrayInStation k).getD 0

/-- `Self::battery_index_in_station` (storage getter, defaulting). -/
def stInIndexG (s : St) (id : HashT) : Nat :=
  (s.batteriesIndexInStation id).getD 0

/-- Result of one dispatchable call: error (if any), post-state, events. -/
structure StepOut where
  err : Option Err
  st : St
  evts : List Evt

/-- `register_station` (battery.rs lines 61-71). -/
def register_station (s : St) (sender : AccountId) : StepOut :=
  if (s.stationsIndex sender).isSome then ⟨some .alreadyBeenStation, s, []⟩
  else
    let s := { s with stationsArray := upd s.stationsArray s.stationsCount (some sender) }
    let s := { s with stationsIndex := upd s.stationsIndex sender (some s.stationsCount) }
    let s := { s with stationsCount := s.stationsCount + 1 }
    ⟨none, s, [.RegistryStation sender]⟩

/-- `registry_battery` (battery.rs lines 73-108); `rid` is the random
hash computed from the environment payload, `now` the timestamp. -/
def registry_battery (s : St) (sender owner : AccountId) (rid : HashT) (now : Moment) :
    StepOut :=
  if (s.stationsIndex sender).isNone then ⟨some .notAStation, s, []⟩
  else if (s.batteries rid).isSome then ⟨some .batteryAlreadyExists, s, []⟩
  else
    let new_battery : Battery := ⟨rid, owner, some sender, false, now⟩
    let s := { s with batteries := upd s.batteries rid (some new_battery) }
    let s := { s with allBatteriesArray := upd s.allBatteriesArray s.allBatteriesCount (some rid) }
    let s := { s with allBatteriesCount := s.allBatteriesCount + 1 }
    let s := { s with ownedBatteriesArray := upd s.ownedBatteriesArray (owner, s.ownedBatteriesCount owner) (some rid) }
    let s := { s with ownedBatteriesIndex := upd s.ownedBatteriesIndex rid (some (s.ownedBatteriesCount owner)) }
    let s := { s with ownedBatteriesCount := upd s.ownedBatteriesCount owner (s.ownedBatteriesCount owner + 1) }
    let s := { s with batteriesArrayInStation := upd s.batteriesArrayInStation (sender, s.batteriesCountInStation sender) (some rid) }
    let s := { s with batteriesIndexInStation := upd s.batteriesIndexInStation rid (some (s.batteriesCountInStation sender)) }
    let s := { s with batteriesCountInStation := upd s.batteriesCountInStation sender (s.batteriesCountInStation sender + 1) }
    ⟨none, s, [.RegistryBattery sender rid owner]⟩

/-- `switch_tradable` (battery.rs lines 110-123). -/
def switch_tradable (s : St) (sender : AccountId) (id : HashT) : StepOut :=
  if (s.batteries id).isNone then ⟨some .idDoesNotExist, s, []⟩
  else
    let battery := batteriesG s id
    if battery.owner ≠ sender then ⟨some .notTheOwner, s, []⟩
    else if battery.station = none then ⟨some .mustBeInStation, s, []⟩
    else
      let battery := { battery with tradable := !battery.tradable }
      let s := { s with batteries := upd s.batteries id (some battery) }
      ⟨none, s, [.SwitchTradable id battery.tradable]⟩

/-- `store_to_station` (battery.rs lines 125-142). -/
def store_to_station (s : St) (sender : AccountId) (id : HashT) : StepOut :=
  if (s.stationsIndex sender).isNone then ⟨some .senderNotStation, s, []⟩
  else if (s.batteries id).isNone then ⟨some .batteryDoesNotExist, s, []⟩
  else
    let battery := batteriesG s id
    if battery.station ≠ none then ⟨some .stationMustBeNone, s, []⟩
    else
      let battery := { battery with station := some sender }
      let s := { s with batteries := upd s.batteries id (some battery) }
      let s := { s with batteriesArrayInStation := upd s.batteriesArrayInStation (sender, s.batteriesCountInStation sender) (some id) }
      let s := { s with batteriesIndexInStation := upd s.batteriesIndexInStation id (some (s.batteriesCountInStation sender)) }
      let s := { s with batteriesCountInStation := upd s.batteriesCountInStation sender (s.batteriesCountInStation sender + 1) }
      ⟨none, s, [.StoreToStation id battery.owner sender]⟩

/-- `fetch_from_station` (battery.rs lines 144-170). -/
def fetch_from_station (s : St) (sender : AccountId) (id : HashT) : StepOut :=
  if (s.batteries id).isNone then ⟨some .batteryDoesNotExist, s, []⟩
  else
    let battery := batteriesG s id
    if battery.owner ≠ sender then ⟨some .notTheOwner, s, []⟩
    else
      match battery.station with
      | none => ⟨some .noStationForBattery, s, []⟩
      | some station =>
        let battery := { battery with station := none, tradable := false }
        let battery_index := stInIndexG s id
        let batteries_count := s.batteriesCountInStation station
        let s :=
          if batteries_count ≠ battery_index + 1 then
            let last_battery_id := stInArrayG s (station, batteries_count - 1)
            let s := { s with batteriesArrayInStation := upd s.batteriesArrayInStation (station, battery_index) (some last_battery_id) }
            { s with batteriesIndexInStation := upd s.batteriesIndexInStation last_battery_id (some battery_index) }
          else s
        let s := { s with batteriesArrayInStation := del s.batteriesArrayInStation (station, batteries_count - 1) }
        let s := { s with batteriesIndexInStation := del s.batteriesIndexInStation id }
        let s := { s with batteriesCountInStation := upd s.batteriesCountInStation station (s.batteriesCountInStation station - 1) }
        let s := { s with batteries := upd s.batteries id (some battery) }
        ⟨none, s, [.FetchFromStation id sender battery.owner]⟩

/-- `trade_battery` (battery.rs lines 172-206), translated verbatim; the
owner-partition branch reads slot `owned_battery_index` exactly as the
source does. -/
def trade_battery (s : St) (sender : AccountId) (id : HashT) (dst : AccountId) : StepOut :=
  if (s.stationsIndex sender).isNone then ⟨some .senderNotStation, s, []⟩
  else if (s.batteries id).isNone then ⟨some .batteryDoesNotExist, s, []⟩
  else
    let battery := batteriesG s id
    if battery.station ≠ some sender then ⟨some .senderMustBeStationOfBattery, s, []⟩
    else if !battery.tradable then ⟨some .notTradable, s, []⟩
    else
      let src := battery.owner
      if src = dst then ⟨some .toCannotBeOwner, s, []⟩
      else
        let battery := { battery with owner := dst, tradable := false }
        let owned_battery_count_from := s.ownedBatteriesCount src
        let owned_battery_count_to := s.ownedBatteriesCount dst
        let new_owned_battery_count_from := owned_battery_count_from - 1
        let new_owned_battery_count_to := owned_battery_count_to + 1
        let owned_battery_index := ownedIndexG s id
        let s :=
          if owned_battery_index ≠ new_owned_battery_count_from then
            let last_battery_id_from := ownedArrayG s (src, owned_battery_index)
            let s := { s with ownedBatteriesArray := upd s.ownedBatteriesArray (src, owned_battery_index) (some last_battery_id_from) }
            { s with ownedBatteriesIndex := upd s.ownedBatteriesIndex last_battery_id_from (some owned_battery_index) }
          else s
        let s := { s with batteries := upd s.batteries id (some battery) }
        let s := { s with ownedBatteriesIndex := upd s.ownedBatteriesIndex id (some owned_battery_count_to) }
        let s := { s with ownedBatteriesArray := del s.ownedBatteriesArray (src, new_owned_battery_count_from) }
        let s := { s with ownedBatteriesArray := upd s.ownedBatteriesArray (dst, owned_battery_count_to) (some id) }
        let s := { s with ownedBatteriesCount := upd s.ownedBatteriesCount src new_owned_battery_count_from }
        let s := { s with ownedBatteriesCount := upd s.ownedBatteriesCount dst new_owned_battery_count_to }
        ⟨none, s, [.Trade id src dst sender]⟩

/-- The six public operations with their arguments. -/
inductive Op where
  | registerStation (sender : AccountId)
  | registryBattery (sender owner : AccountId) (rid : HashT) (now : Moment)
  | switchTradable (sender : AccountId) (id : HashT)
  | storeToStation (sender : AccountId) (id : HashT)
  | fetchFromStation (sender : AccountId) (id : HashT)
  | tradeBattery (sender : AccountId) (id : HashT) (dst : AccountId)
deriving DecidableEq, Repr

/-- Dispatch one operation. -/
def step (s : St) : Op → StepOut
  | .registerStation sender => register_station s sender
  | .registryBattery sender owner rid now => registry_battery s sender owner rid now
  | .switchTradable sender id => switch_tradable s sender id
  | .storeToStation sender id => store_to_station s sender id
  | .fetchFromStation sender id => fetch_from_station s sender id
  | .tradeBattery sender id dst => trade_battery s sender id dst

/-- Post-state of one operation (a failed operation leaves the state as is). -/
def stepSt (s : St) (o : Op) : St := (step s o).st

/-- Run a sequence of operations. -/
def applyOps (s : St) (ops : List Op) : St := ops.foldl stepSt s

/-- Genesis storage: every map empty, every counter zero. -/
def emptySt : St :=
  ⟨fun _ => none, 0, fun _ => none, fun _ => 0, fun _ => none, fun _ => none,
   0, fun _ => none, fun _ => none, fun _ => 0, fun _ => none, fun _ => none⟩

/-! ### A concrete reachable state exercising the owner-partition swap-remove -/

/-- Station `1` registers; it registers batteries `10` and `11` for owner
`2`; owner `2` makes battery `10` tradable.  Owner partition `2` is then
`[10, 11]` with positions `10 ↦ 0`, `11 ↦ 1` and count `2`. -/
def tradePre : St :=
  applyOps emptySt
    [.registerStation 1, .registryBattery 1 2 10 0, .registryBattery 1 2 11 0,
     .switchTradable 2 10]

/-- The state after station `1` trades battery `10` (at slot `0`, not the
last slot) away from owner `2` to owner `3`. -/
def tradePost : St := (trade_battery tradePre 1 10 3).st

/-- C1: the swap-remove inside `trade_battery` is broken.  In the
reachable state `tradePre`, battery `10` sits at slot `i = 0` of owner
`2`'s partition, the partition has `n = 2` members, and slot `n-1 = 1`
holds battery `11` — so removing `10` should move `11` into slot `0` and
set its position entry to `0`.  The trade succeeds, yet afterwards slot
`0` still holds the traded-away id `10`, battery `11`'s position entry is
still `1`, and slot `1` — where `11` actually lived — has been cleared:
the member at slot `n-1` was relocated nowhere and no position entry was
updated (the source reads slot `owned_battery_index` instead of slot
`new_owned_battery_count_from` at battery.rs line 193). -/
theorem trade_swap_remove_loses_last_member :
    (tradePre.ownedBatteriesIndex 10 = some 0 ∧
     tradePre.ownedBatteriesCount 2 = 2 ∧
     tradePre.ownedBatteriesArray (2, 1) = some 11) ∧
    (trade_battery tradePre 1 10 3).err = none ∧
    (tradePost.ownedBatteriesArray (2, 0) = some 10 ∧
     tradePost.ownedBatteriesIndex 11 = some 1 ∧
     tradePost.ownedBatteriesArray (2, 1) = none) := by
  decide

/-- C2: the `members[p][position[id]] == id` invariant does not survive
`trade_battery`.  After the successful operation sequence leading to
`tradePost`, battery `11` still belongs to owner `2` (it was never
traded), its recorded position is `1`, but owner `2`'s array has nothing
at slot `1`, so `members[2][position[11]] ≠ 11`. -/
theorem indexed_set_invariant_violated_by_trade :
    tradePost.batteries 11 = some ⟨11, 2, some 1, false, 0⟩ ∧
    tradePost.ownedBatteriesIndex 11 = some 1 ∧
    tradePost.ownedBatteriesArray (2, 1) ≠ some 11 := by
  decide

/-! ### Error paths -/

/-- C3: whenever any of the six operations reports an error, the state it
returns is exactly the input state and no event is emitted; moreover every
precondition, when it is the one that fails (all checks before it in the
source passing), yields exactly its own error — all thirteen
`ensure!`/`ok_or` checks of the six operations are covered, in source
order. -/
theorem failed_precondition_is_pure :
    (∀ (s : St) (o : Op), (step s o).err.isSome →
      (step s o).st = s ∧ (step s o).evts = []) ∧
    (∀ (s : St) (a : AccountId), (s.stationsIndex a).isSome →
      (register_station s a).err = some .alreadyBeenStation) ∧
    (∀ (s : St) (a o : AccountId) (rid : HashT) (now : Moment),
      (s.stationsIndex a).isNone →
      (registry_battery s a o rid now).err = some .notAStation) ∧
    (∀ (s : St) (a o : AccountId) (rid : HashT) (now : Moment),
      (s.stationsIndex a).isSome = true → (s.batteries rid).isSome = true →
      (registry_battery s a o rid now).err = some .batteryAlreadyExists) ∧
    (∀ (s : St) (a : AccountId) (id : HashT), (s.batteries id).isNone →
      (switch_tradable s a id).err = some .idDoesNotExist) ∧
    (∀ (s : St) (a : AccountId) (id : HashT) (b : Battery),
      s.batteries id = some b → b.owner ≠ a →
      (switch_tradable s a id).err = some .notTheOwner) ∧
    (∀ (s : St) (a : AccountId) (id : HashT) (b : Battery),
      s.batteries id = some b → b.owner = a → b.station = none →
      (switch_tradable s a id).err = some .mustBeInStation) ∧
    (∀ (s : St) (a : AccountId) (id : HashT), (s.stationsIndex a).isNone →
      (store_to_station s a id).err = some .senderNotStation) ∧
    (∀ (s : St) (a : AccountId) (id : HashT),
      (s.stationsIndex a).isSome = true → s.batteries id = none →
      (store_to_station s a id).err = some .batteryDoesNotExist) ∧
    (∀ (s : St) (a : AccountId) (id : HashT) (b : Battery),
      (s.stationsIndex a).isSome = true → s.batteries id = some b →
      b.station ≠ none →
      (store_to_station s a id).err = some .stationMustBeNone) ∧
    (∀ (s : St) (a : AccountId) (id : HashT), (s.batteries id).isNone →
      (fetch_from_station s a id).err = some .batteryDoesNotExist) ∧
    (∀ (s : St) (a : AccountId) (id : HashT) (b : Battery),
      s.batteries id = some b → b.owner ≠ a →
      (fetch_from_station s a id).err = some .notTheOwner) ∧
    (∀ (s : St) (a : AccountId) (id : HashT) (b : Battery),
      s.batteries id = some b → b.owner = a → b.station = none →
      (fetch_from_station s a id).err = some .noStationForBattery) ∧
    (∀ (s : St) (a : AccountId) (id : HashT) (d : AccountId),
      (s.stationsIndex a).isNone →
      (trade_battery s a id d).err = some .senderNotStation) ∧
    (∀ (s : St) (a : AccountId) (id : HashT) (d : AccountId),
      (s.stationsIndex a).isSome = true → s.batteries id = none →
      (trade_battery s a id d).err = some .batteryDoesNotExist) ∧
    (∀ (s : St) (a : AccountId) (id : HashT) (d : AccountId) (b : Battery),
      (s.stationsIndex a).isSome = true → s.batteries id = some b →
      b.station ≠ some a →
      (trade_battery s a id d).err = some .senderMustBeStationOfBattery) ∧
    (∀ (s : St) (a : AccountId) (id : HashT) (d : AccountId) (b : Battery),
      (s.stationsIndex a).isSome = true → s.batteries id = some b →
      b.station = some a → b.tradable = false →
      (trade_battery s a id d).err = some .notTradable) ∧
    (∀ (s : St) (a : AccountId) (id : HashT) (d : AccountId) (b : Battery),
      (s.stationsIndex a).isSome = true → s.batteries id = some b →
      b.station = some a → b.tradable = true → b.owner = d →
      (trade_battery s a id d).err = some .toCannotBeOwner) := by
  refine ⟨?_, ?_, ?_, ?_, ?_, ?_, ?_, ?_, ?_, ?_, ?_, ?_, ?_, ?_, ?_, ?_, ?_, ?_⟩
  · intro s o
    cases o <;>
      simp only [step, register_station, registry_battery, switch_tradable,
        store_to_station, fetch_from_station, trade_battery] <;>
      repeat' split
    all_goals simp
  · intro s a h; simp [register_station, h]
  · intro s a o rid now h; simp [registry_battery, h]
  · intro s a o rid now h hex
    obtain ⟨si, hsi⟩ := Option.isSome_iff_exists.mp h
    simp [registry_battery, hsi, hex]
  · intro s a id h; simp [switch_tradable, h]
  · intro s a id b hb hno
    have hbg : batteriesG s id = b := by simp [batteriesG, hb]
    simp [switch_tradable, hb, hbg, hno]
  · intro s a id b hb howner hstn
    have hbg : batteriesG s id = b := by simp [batteriesG, hb]
    simp [switch_tradable, hb, hbg, howner, hstn]
  · intro s a id h; simp [store_to_station, h]
  · intro s a id h hex
    obtain ⟨si, hsi⟩ := Option.isSome_iff_exists.mp h
    simp [store_to_station, hsi, hex]
  · intro s a id b h hb hstn
    obtain ⟨si, hsi⟩ := Option.isSome_iff_exists.mp h
    have hbg : batteriesG s id = b := by simp [batteriesG, hb]
    simp [store_to_station, hsi, hb, hbg, hstn]
  · intro s a id h; simp [fetch_from_station, h]
  · intro s a id b hb hno
    have hbg : batteriesG s id = b := by simp [batteriesG, hb]
    simp [fetch_from_station, hb, hbg, hno]
  · intro s a id b hb howner hstn
    have hbg : batteriesG s id = b := by simp [batteriesG, hb]
    simp [fetch_from_station, hb, hbg, howner, hstn]
  · intro s a id d h; simp [trade_battery, h]
  · intro s a id d h hex
    obtain ⟨si, hsi⟩ := Option.isSome_iff_exists.mp h
    simp [trade_battery, hsi, hex]
  · intro s a id d b h hb hcust
    obtain ⟨si, hsi⟩ := Option.isSome_iff_exists.mp h
    have hbg : batteriesG s id = b := by simp [batteriesG, hb]
    simp [trade_battery, hsi, hb, hbg, hcust]
  · intro s a id d b h hb hcust htrad
    obtain ⟨si, hsi⟩ := Option.isSome_iff_exists.mp h
    have hbg : batteriesG s id = b := by simp [batteriesG, hb]
    simp [trade_battery, hsi, hb, hbg, hcust, htrad]
  · intro s a id d b h hb hcust htrad hsame
    obtain ⟨si, hsi⟩ := Option.isSome_iff_exists.mp h
    have hbg : batteriesG s id = b := by simp [batteriesG, hb]
    simp [trade_battery, hsi, hb, hbg, hcust, htrad, hsame]

/-- Witness for C3: in the genesis state `registry_battery` called by the
non-station `5` fails, mutates nothing and emits nothing. -/
theorem failed_precondition_is_pure_witness :
    (step emptySt (.registryBattery 5 6 10 0)).st = emptySt ∧
    (step emptySt (.registryBattery 5 6 10 0)).evts = [] :=
  failed_precondition_is_pure.1 emptySt (.registryBattery 5 6 10 0) (by decide)

/-! ### The tradable-implies-custodian invariant -/

/-- Every stored battery that is tradable has a custodian station. -/
def TradableInv (s : St) : Prop :=
  ∀ (id : HashT) (b : Battery),
    s.batteries id = some b → b.tradable = true → b.station.isSome = true

theorem tradableInv_stepSt (s : St) (o : Op) (hs : TradableInv s) :
    TradableInv (stepSt s o) := by
  intro id b hb ht
  cases o <;>
    simp only [stepSt, step, register_station, registry_battery, switch_tradable,
      store_to_station, fetch_from_station, trade_battery, upd] at hb <;>
    repeat' split at hb
  all_goals try exact hs id b hb ht
  all_goals simp only [upd] at hb
  all_goals split at hb
  all_goals
    first
      | exact hs id b hb ht
      | (injection hb with hb; subst hb; simp_all [Option.ne_none_iff_isSome])

theorem tradableInv_applyOps (ops : List Op) (s : St) (hs : TradableInv s) :
    TradableInv (applyOps s ops) := by
  induction ops generalizing s with
  | nil => exact hs
  | cons o ops ih => exact ih (stepSt s o) (tradableInv_stepSt s o hs)

/-- C4: after any finite sequence of operations from genesis, every
stored battery with `tradable = true` has `station.isSome`. -/
theorem tradable_implies_custodian (ops : List Op) (id : HashT) (b : Battery)
    (hb : (applyOps emptySt ops).batteries id = some b)
    (ht : b.tradable = true) : b.station.isSome = true := by
  refine tradableInv_applyOps ops emptySt ?_ id b hb ht
  intro id b hb
  simp [emptySt] at hb

/-- Witness for C4: after registering and switching, battery `10` is
tradable and indeed has custodian station `1`. -/
theorem tradable_implies_custodian_witness :
    (Battery.station ⟨10, 2, some 1, true, 0⟩).isSome = true :=
  tradable_implies_custodian
    [.registerStation 1, .registryBattery 1 2 10 0, .switchTradable 2 10]
    10 ⟨10, 2, some 1, true, 0⟩ (by decide) (by decide)

/-! ### Success-path effects -/

/-- C5: when battery `id` exists with custodian `caller`, is tradable,
`caller` is a station, `dst` differs from the current owner and the
current owner's partition count is positive (as it is in every state
satisfying the partition invariant; in Rust a zero count would underflow
rather than decrease), `trade_battery` succeeds, sets the owner to `dst`,
resets `tradable`, moves one unit of owner-partition count from the old
owner to `dst`, and emits `Trade(id, from, to, station)`. -/
theorem trade_battery_success_effects (s : St) (caller : AccountId) (id : HashT)
    (dst : AccountId) (b : Battery)
    (hstation : (s.stationsIndex caller).isSome = true)
    (hb : s.batteries id = some b)
    (hcust : b.station = some caller)
    (htrad : b.tradable = true)
    (hneq : b.owner ≠ dst)
    (hcnt : 0 < s.ownedBatteriesCount b.owner) :
    (trade_battery s caller id dst).err = none ∧
    (trade_battery s caller id dst).st.batteries id =
      some { b with owner := dst, tradable := false } ∧
    (trade_battery s caller id dst).st.ownedBatteriesCount b.owner + 1 =
      s.ownedBatteriesCount b.owner ∧
    (trade_battery s caller id dst).st.ownedBatteriesCount dst =
      s.ownedBatteriesCount dst + 1 ∧
    (trade_battery s caller id dst).evts = [.Trade id b.owner dst caller] := by
  obtain ⟨si, hsi⟩ := Option.isSome_iff_exists.mp hstation
  have hbg : batteriesG s id = b := by simp [batteriesG, hb]
  by_cases hidx : ownedIndexG s id = s.ownedBatteriesCount b.owner - 1 <;>
    simp [trade_battery, hsi, hb, hbg, hcust, htrad, hneq, hidx, upd] <;>
    omega

/-- Witness for C5: in `tradePre`, station `1` trades battery `10` from
owner `2` to owner `3`. -/
theorem trade_battery_success_effects_witness :
    (trade_battery tradePre 1 10 3).err = none ∧
    (trade_battery tradePre 1 10 3).st.batteries 10 =
      some { (⟨10, 2, some 1, true, 0⟩ : Battery) with owner := 3, tradable := false } ∧
    (trade_battery tradePre 1 10 3).st.ownedBatteriesCount
        (Battery.owner ⟨10, 2, some 1, true, 0⟩) + 1 =
      tradePre.ownedBatteriesCount (Battery.owner ⟨10, 2, some 1, true, 0⟩) ∧
    (trade_battery tradePre 1 10 3).st.ownedBatteriesCount 3 =
      tradePre.ownedBatteriesCount 3 + 1 ∧
    (trade_battery tradePre 1 10 3).evts =
      [.Trade 10 (Battery.owner ⟨10, 2, some 1, true, 0⟩) 3 1] :=
  trade_battery_success_effects tradePre 1 10 3 ⟨10, 2, some 1, true, 0⟩
    (by decide) (by decide) (by decide) (by decide) (by decide) (by decide)

/-- C6: when battery `id` exists, the caller is its owner, its custodian
is station `stn`, and `stn`'s partition count is positive (as in every
state satisfying the partition invariant; in Rust a zero count would
underflow rather than decrease), `fetch_from_station` succeeds, clears
the custodian, resets `tradable`, removes `id` from the station's
partition index, and decreases the partition count by one — to `0` when
`id` was the only member. -/
theorem fetch_from_station_success_effects (s : St) (caller : AccountId)
    (id : HashT) (stn : AccountId) (b : Battery)
    (hb : s.batteries id = some b)
    (howner : b.owner = caller)
    (hcust : b.station = some stn)
    (hcnt : 0 < s.batteriesCountInStation stn) :
    (fetch_from_station s caller id).err = none ∧
    (fetch_from_station s caller id).st.batteries id =
      some { b with station := none, tradable := false } ∧
    (fetch_from_station s caller id).st.batteriesCountInStation stn + 1 =
      s.batteriesCountInStation stn ∧
    (s.batteriesCountInStation stn = 1 →
      (fetch_from_station s caller id).st.batteriesCountInStation stn = 0) ∧
    (fetch_from_station s caller id).st.batteriesIndexInStation id = none := by
  have hbg : batteriesG s id = b := by simp [batteriesG, hb]
  by_cases hidx : s.batteriesCountInStation stn = stInIndexG s id + 1 <;>
    simp [fetch_from_station, hb, hbg, howner, hcust, hidx, upd, del]
  all_goals omega

/-- The reachable state right after station `1` registers battery `10`
for owner `2`: station `1`'s partition holds exactly `[10]`. -/
def fetchPre : St :=
  applyOps emptySt [.registerStation 1, .registryBattery 1 2 10 0]

/-- Witness for C6: owner `2` fetches battery `10` from station `1` in
`fetchPre`; the station partition count drops from `1` to `0`. -/
theorem fetch_from_station_success_effects_witness :
    (fetch_from_station fetchPre 2 10).err = none ∧
    (fetch_from_station fetchPre 2 10).st.batteries 10 =
      some { (⟨10, 2, some 1, false, 0⟩ : Battery) with
               station := none, tradable := false } ∧
    (fetch_from_station fetchPre 2 10).st.batteriesCountInStation 1 + 1 =
      fetchPre.batteriesCountInStation 1 ∧
    (fetchPre.batteriesCountInStation 1 = 1 →
      (fetch_from_station fetchPre 2 10).st.batteriesCountInStation 1 = 0) ∧
    (fetch_from_station fetchPre 2 10).st.batteriesIndexInStation 10 = none :=
  fetch_from_station_success_effects fetchPre 2 10 1 ⟨10, 2, some 1, false, 0⟩
    (by decide) (by decide) (by decide) (by decide)

/-! ### Toggling `tradable` -/

theorem upd_upd_same {α β : Type} [DecidableEq α] (f : α → β) (k : α) (v w : β) :
    upd (upd f k v) k w = upd f k w := by
  funext x
  by_cases hx : x = k <;> simp [upd, hx]

theorem upd_eq_self {α β : Type} [DecidableEq α] (f : α → β) (k : α) (v : β)
    (h : f k = v) : upd f k v = f := by
  funext x
  by_cases hx : x = k <;> simp [upd, hx, h.symm]

/-- `n` consecutive `switch_tradable(caller, id)` calls. -/
def switchIter (s : St) (caller : AccountId) (id : HashT) : Nat → St
  | 0 => s
  | n + 1 => (switch_tradable (switchIter s caller id n) caller id).st

/-- Shape of one successful `switch_tradable`: only the stored battery's
`tradable` flag is toggled. -/
theorem switch_tradable_shape (s : St) (caller : AccountId) (id : HashT)
    (b : Battery) (hb : s.batteries id = some b) (howner : b.owner = caller)
    (hst : b.station ≠ none) :
    switch_tradable s caller id =
      ⟨none, { s with batteries := upd s.batteries id (some { b with tradable := !b.tradable }) },
       [.SwitchTradable id (!b.tradable)]⟩ := by
  have hbg : batteriesG s id = b := by simp [batteriesG, hb]
  simp [switch_tradable, hb, hbg, howner, hst]

/-- Closed form of `switchIter`: after `n` calls the battery's flag is
its original value xor the parity of `n`, and nothing else changed. -/
theorem switchIter_closed_form (s : St) (caller : AccountId) (id : HashT)
    (b : Battery) (hb : s.batteries id = some b) (howner : b.owner = caller)
    (hst : b.station ≠ none) :
    ∀ n, switchIter s caller id n =
      { s with batteries := (upd s.batteries id
          (some { b with tradable := xor b.tradable (decide (n % 2 = 1)) })) } := by
  intro n
  induction n with
  | zero =>
      simp only [switchIter, Nat.zero_mod, decide_eq_true_eq]
      have : ({ b with tradable := xor b.tradable (decide (0 % 2 = 1)) } : Battery) = b := by
        cases b; simp
      rw [this, upd_eq_self s.batteries id (some b) hb]
  | succ n ih =>
      have hbn : (switchIter s caller id n).batteries id =
          some { b with tradable := xor b.tradable (decide (n % 2 = 1)) } := by
        rw [ih]; simp [upd]
      have hshape := switch_tradable_shape (switchIter s caller id n) caller id
        { b with tradable := xor b.tradable (decide (n % 2 = 1)) } hbn howner hst
      show (switch_tradable (switchIter s caller id n) caller id).st = _
      rw [hshape, ih]
      ext1 <;> simp [upd_upd_same]
      rcases Nat.mod_two_eq_zero_or_one n with h | h
      · have h1 : (n + 1) % 2 = 1 := by omega
        simp [h, h1]
      · have h1 : (n + 1) % 2 = 0 := by omega
        simp [h, h1]

/-- C7: for a battery with a custodian whose owner is the caller and
whose flag starts `false` (as it is right after registration), two
consecutive `switch_tradable` calls return the flag to `false`, any odd
number of consecutive calls leaves it `true`, and after any number of
calls the state differs from the original only in that battery's
`tradable` flag. -/
theorem switch_tradable_parity (s : St) (caller : AccountId) (id : HashT)
    (b : Battery) (hb : s.batteries id = some b) (howner : b.owner = caller)
    (hst : b.station ≠ none) (ht0 : b.tradable = false) :
    (switchIter s caller id 2).batteries id = some b ∧
    (∀ n, n % 2 = 1 →
      (switchIter s caller id n).batteries id = some { b with tradable := true }) ∧
    (∀ n, switchIter s caller id n =
      { s with batteries := (upd s.batteries id
          (some { b with tradable := xor b.tradable (decide (n % 2 = 1)) })) }) := by
  have hcf := switchIter_closed_form s caller id b hb howner hst
  refine ⟨?_, ?_, hcf⟩
  · rw [hcf 2]
    have : ({ b with tradable := xor b.tradable (decide (2 % 2 = 1)) } : Battery) = b := by
      cases b; simp
    rw [this, upd_eq_self s.batteries id (some b) hb]
    exact hb
  · intro n hn
    rw [hcf n]
    simp [upd, hn, ht0]

/-- Witness for C7 at the state `fetchPre` (battery `10`, owner `2`,
custodian `1`, flag `false`): three calls leave the flag `true`, two
calls restore the original record. -/
theorem switch_tradable_parity_witness :
    (switchIter fetchPre 2 10 2).batteries 10 = some ⟨10, 2, some 1, false, 0⟩ ∧
    (∀ n, n % 2 = 1 →
      (switchIter fetchPre 2 10 n).batteries 10 =
        some { (⟨10, 2, some 1, false, 0⟩ : Battery) with tradable := true }) ∧
    (∀ n, switchIter fetchPre 2 10 n =
      { fetchPre with batteries := (upd fetchPre.batteries 10
          (some { (⟨10, 2, some 1, false, 0⟩ : Battery) with
                    tradable := xor (Battery.tradable ⟨10, 2, some 1, false, 0⟩)
                      (decide (n % 2 = 1)) })) }) :=
  switch_tradable_parity fetchPre 2 10 ⟨10, 2, some 1, false, 0⟩
    (by decide) (by decide) (by decide) (by decide)

/-! ### Append-only global registry and station set -/

theorem registry_monotone_stepSt (s : St) (o : Op) :
    s.allBatteriesCount ≤ (stepSt s o).allBatteriesCount ∧
    s.stationsCount ≤ (stepSt s o).stationsCount ∧
    (∀ k, (s.allBatteriesArray k).isSome = true →
      ((stepSt s o).allBatteriesArray k).isSome = true) ∧
    (∀ a, (s.stationsIndex a).isSome = true →
      ((stepSt s o).stationsIndex a).isSome = true) := by
  cases o <;>
    simp only [stepSt, step, register_station, registry_battery, switch_tradable,
      store_to_station, fetch_from_station, trade_battery] <;>
    repeat' split
  all_goals refine ⟨?_, ?_, ?_, ?_⟩
  all_goals try exact le_rfl
  all_goals try exact Nat.le_succ _
  all_goals intro x hx
  all_goals try exact hx
  all_goals simp only [upd]
  all_goals split <;> simp_all

/-- C8: no operation sequence ever shrinks the global registry or the
station set: the global battery count and the station count never
decrease, a written global-array slot stays written, and a registered
station stays registered. -/
theorem registry_append_only (s : St) (ops : List Op) :
    s.allBatteriesCount ≤ (applyOps s ops).allBatteriesCount ∧
    s.stationsCount ≤ (applyOps s ops).stationsCount ∧
    (∀ k, (s.allBatteriesArray k).isSome = true →
      ((applyOps s ops).allBatteriesArray k).isSome = true) ∧
    (∀ a, (s.stationsIndex a).isSome = true →
      ((applyOps s ops).stationsIndex a).isSome = true) := by
  induction ops generalizing s with
  | nil => exact ⟨le_rfl, le_rfl, fun _ h => h, fun _ h => h⟩
  | cons o ops ih =>
      have h1 := registry_monotone_stepSt s o
      have h2 := ih (stepSt s o)
      exact ⟨le_trans h1.1 h2.1, le_trans h1.2.1 h2.2.1,
        fun k hk => h2.2.2.1 k (h1.2.2.1 k hk),
        fun a ha => h2.2.2.2 a (h1.2.2.2 a ha)⟩

/-- Witness for C8: from `fetchPre` (battery `10` in the global array at
slot `0`, station `1` registered), a fetch followed by further calls
keeps the counts, the written slot, and the station membership. -/
theorem registry_append_only_witness :
    fetchPre.allBatteriesCount ≤
      (applyOps fetchPre [.fetchFromStation 2 10, .registerStation 4]).allBatteriesCount ∧
    fetchPre.stationsCount ≤
      (applyOps fetchPre [.fetchFromStation 2 10, .registerStation 4]).stationsCount ∧
    ((applyOps fetchPre [.fetchFromStation 2 10, .registerStation 4]).allBatteriesArray 0).isSome = true ∧
    ((applyOps fetchPre [.fetchFromStation 2 10, .registerStation 4]).stationsIndex 1).isSome = true :=
  ⟨(registry_append_only fetchPre [.fetchFromStation 2 10, .registerStation 4]).1,
   (registry_append_only fetchPre [.fetchFromStation 2 10, .registerStation 4]).2.1,
   (registry_append_only fetchPre [.fetchFromStation 2 10, .registerStation 4]).2.2.1 0 (by decide),
   (registry_append_only fetchPre [.fetchFromStation 2 10, .registerStation 4]).2.2.2 1 (by decide)⟩

/-! ### Event shape of fetch; frame of switch -/

/-- C9: every successful `fetch_from_station` emits an event whose
second and third fields coincide: the owner check forces the caller to
be the owner, and the operation never changes the owner, so the event is
`FetchFromStation(id, caller, caller)`. -/
theorem fetch_event_repeats_caller (s : St) (caller : AccountId) (id : HashT)
    (h : (fetch_from_station s caller id).err = none) :
    (fetch_from_station s caller id).evts = [.FetchFromStation id caller caller] := by
  by_cases h1 : (s.batteries id).isNone
  · simp [fetch_from_station, h1] at h
  · by_cases h2 : (batteriesG s id).owner = caller
    · rcases h3 : (batteriesG s id).station with _ | stn
      · simp [fetch_from_station, h1, h2, h3] at h
      · by_cases h4 : s.batteriesCountInStation stn = stInIndexG s id + 1 <;>
          simp [fetch_from_station, h1, h2, h3, h4]
    · simp [fetch_from_station, h1, h2] at h

/-- Witness for C9: the fetch of battery `10` by owner `2` in `fetchPre`
emits `FetchFromStation(10, 2, 2)`. -/
theorem fetch_event_repeats_caller_witness :
    (fetch_from_station fetchPre 2 10).evts = [.FetchFromStation 10 2 2] :=
  fetch_event_repeats_caller fetchPre 2 10 (by decide)

/-- C10: a successful `switch_tradable` changes only the `tradable`
field of the targeted battery: its other fields, every other battery,
and every partitioned-set array, index and count are untouched, and the
only event is `SwitchTradable`. -/
theorem switch_tradable_frame (s : St) (caller : AccountId) (id : HashT)
    (b : Battery) (hb : s.batteries id = some b) (howner : b.owner = caller)
    (hst : b.station ≠ none) :
    (switch_tradable s caller id).err = none ∧
    (switch_tradable s caller id).st.batteries id =
      some { b with tradable := !b.tradable } ∧
    (∀ h, h ≠ id → (switch_tradable s caller id).st.batteries h = s.batteries h) ∧
    (switch_tradable s caller id).st.allBatteriesCount = s.allBatteriesCount ∧
    (switch_tradable s caller id).st.allBatteriesArray = s.allBatteriesArray ∧
    (switch_tradable s caller id).st.ownedBatteriesCount = s.ownedBatteriesCount ∧
    (switch_tradable s caller id).st.ownedBatteriesArray = s.ownedBatteriesArray ∧
    (switch_tradable s caller id).st.ownedBatteriesIndex = s.ownedBatteriesIndex ∧
    (switch_tradable s caller id).st.stationsCount = s.stationsCount ∧
    (switch_tradable s caller id).st.stationsArray = s.stationsArray ∧
    (switch_tradable s caller id).st.stationsIndex = s.stationsIndex ∧
    (switch_tradable s caller id).st.batteriesCountInStation = s.batteriesCountInStation ∧
    (switch_tradable s caller id).st.batteriesArrayInStation = s.batteriesArrayInStation ∧
    (switch_tradable s caller id).st.batteriesIndexInStation = s.batteriesIndexInStation ∧
    (switch_tradable s caller id).evts = [.SwitchTradable id (!b.tradable)] := by
  rw [switch_tradable_shape s caller id b hb howner hst]
  refine ⟨rfl, ?_, ?_, rfl, rfl, rfl, rfl, rfl, rfl, rfl, rfl, rfl, rfl, rfl, rfl⟩
  · simp [upd]
  · intro h hh
    simp [upd, hh]

/-- Witness for C10: switching battery `10` in `fetchPre` toggles only
its flag. -/
theorem switch_tradable_frame_witness :
    (switch_tradable fetchPre 2 10).err = none ∧
    (switch_tradable fetchPre 2 10).st.batteries 10 =
      some { (⟨10, 2, some 1, false, 0⟩ : Battery) with
               tradable := !(Battery.tradable ⟨10, 2, some 1, false, 0⟩) } ∧
    (∀ h, h ≠ 10 → (switch_tradable fetchPre 2 10).st.batteries h = fetchPre.batteries h) ∧
    (switch_tradable fetchPre 2 10).st.allBatteriesCount = fetchPre.allBatteriesCount ∧
    (switch_tradable fetchPre 2 10).st.allBatteriesArray = fetchPre.allBatteriesArray ∧
    (switch_tradable fetchPre 2 10).st.ownedBatteriesCount = fetchPre.ownedBatteriesCount ∧
    (switch_tradable fetchPre 2 10).st.ownedBatteriesArray = fetchPre.ownedBatteriesArray ∧
    (switch_tradable fetchPre 2 10).st.ownedBatteriesIndex = fetchPre.ownedBatteriesIndex ∧
    (switch_tradable fetchPre 2 10).st.stationsCount = fetchPre.stationsCount ∧
    (switch_tradable fetchPre 2 10).st.stationsArray = fetchPre.stationsArray ∧
    (switch_tradable fetchPre 2 10).st.stationsIndex = fetchPre.stationsIndex ∧
    (switch_tradable fetchPre 2 10).st.batteriesCountInStation = fetchPre.batteriesCountInStation ∧
    (switch_tradable fetchPre 2 10).st.batteriesArrayInStation = fetchPre.batteriesArrayInStation ∧
    (switch_tradable fetchPre 2 10).st.batteriesIndexInStation = fetchPre.batteriesIndexInStation ∧
    (switch_tradable fetchPre 2 10).evts =
      [.SwitchTradable 10 (!(Battery.tradable ⟨10, 2, some 1, false, 0⟩))] :=
  switch_tradable_frame fetchPre 2 10 ⟨10, 2, some 1, false, 0⟩
    (by decide) (by decide) (by decide)

end BatteryModule
